import Mathlib

/-!
Verification of the dungeon-crawler core (src/main.js): procedural dungeon
generation (random room placement with overlap rejection, L-shaped corridor
connection) and the grid-based movement/collision and combat system.

Modelling conventions:
* JS numbers used as continuous coordinates/time are embedded as `ℚ`
  (exact arithmetic; the collision and combat logic is pure comparison
  arithmetic on these values).
* The global `Math.random()` source is reified as an explicit stream
  `rng : ℕ → ℚ` of draws in `[0, 1)`, consumed in the exact order the JS
  code calls `Math.random()` (4 draws per room attempt, then one coin per
  corridor).  The JS code itself has no way to inject or seed this source;
  the stream here is the standard purification of that ambient effect.
* The grid is a structure with `width`, `height` and a total cell function;
  `grid[y][x] = 1` writes become pointwise function updates, and the JS
  truthiness check `dungeonGrid[cellZ] && dungeonGrid[cellZ][cellX] === 1`
  becomes an explicit bounds test (out-of-range rows/columns read as
  undefined, i.e. not Floor).
-/

/-- Game constants from src/main.js lines 6-17. -/
def DUNGEON_WIDTH : ℕ := 30

/-- Dungeon height constant (src/main.js line 7). -/
def DUNGEON_HEIGHT : ℕ := 30

/-- Maximum number of room attempts (src/main.js line 8). -/
def MAX_ROOMS : ℕ := 6

/-- Minimum room dimension (src/main.js line 9). -/
def ROOM_MIN_SIZE : ℕ := 3

/-- Maximum room dimension (src/main.js line 10). -/
def ROOM_MAX_SIZE : ℕ := 6

/-- Player starting health (src/main.js line 14). -/
def PLAYER_MAX_HEALTH : ℤ := 100

/-- Enemy starting health (src/main.js line 15). -/
def ENEMY_MAX_HEALTH : ℤ := 50

/-- Damage dealt to the player per enemy hit (src/main.js line 16). -/
def ENEMY_DAMAGE : ℤ := 10

/-- Enemy attack cooldown in milliseconds (src/main.js line 17). -/
def ATTACK_INTERVAL : ℚ := 1000

/-- `Math.floor(q * k)` for a draw `q` of `Math.random()` and a natural
range `k`, as used for all integer draws in `generateDungeon`. -/
def jsRandInt (q : ℚ) (k : ℕ) : ℕ := (Int.floor (q * k)).toNat

/-- A `Math.random()` stream: every draw lies in `[0, 1)`. -/
def GoodRng (rng : ℕ → ℚ) : Prop := ∀ n, 0 ≤ rng n ∧ rng n < 1

/-- The dungeon grid: a `width × height` array of cells, `cell y x = 0` wall,
`= 1` floor (src/main.js lines 123-133).  `cell` is total; generation only
ever writes inside the bounds. -/
structure Grid where
  width : ℕ
  height : ℕ
  cell : ℕ → ℕ → ℕ

/-- The all-wall initial grid (src/main.js lines 127-133). -/
def mkGrid (width height : ℕ) : Grid :=
  { width := width, height := height, cell := fun _ _ => 0 }

/-- `carveRoom(x, y, w, h)`: set every cell of the rectangle to floor
(src/main.js lines 137-143). -/
def carveRoom (g : Grid) (xr yr wr hr : ℕ) : Grid :=
  { g with cell := fun yy xx =>
      if yr ≤ yy ∧ yy < yr + hr ∧ xr ≤ xx ∧ xx < xr + wr then 1 else g.cell yy xx }

/-- The overlap scan of a candidate room: true when any cell of the
rectangle is already floor (src/main.js lines 152-159). -/
def overlaps (g : Grid) (xr yr wr hr : ℕ) : Bool :=
  (List.range hr).any fun dy =>
    (List.range wr).any fun dx => decide (g.cell (yr + dy) (xr + dx) = 1)

/-- An accepted room rectangle; the JS code keeps `x, y, w, h` as locals of
one loop iteration and records only the center, but the carved rectangle is
exactly this region (src/main.js lines 146-168). -/
structure RoomRect where
  x : ℕ
  y : ℕ
  w : ℕ
  h : ℕ

/-- A room center: `Math.floor(x + w/2)` and `Math.floor(y + h/2)`
(src/main.js lines 165-167), returned as an `(cx, cy)` pair. -/
def roomCenter (r : RoomRect) : ℕ × ℕ := (r.x + r.w / 2, r.y + r.h / 2)

/-- The room-placement loop (src/main.js lines 146-168).  One attempt draws
`w, h, x, y` (four `Math.random()` calls in that order), rejects the
candidate if any of its cells is already floor, and otherwise carves it and
appends its rectangle.  `n` counts the remaining attempts, `idx` indexes
the next unconsumed draw of the stream; the result also returns the next
draw index so corridor coins follow the room draws. -/
def placeRooms (width height roomMin roomMax : ℕ) (rng : ℕ → ℚ) :
    ℕ → ℕ → Grid → List RoomRect → Grid × List RoomRect × ℕ
  | 0, idx, g, rs => (g, rs, idx)
  | n + 1, idx, g, rs =>
    let wr := jsRandInt (rng idx) (roomMax - roomMin + 1) + roomMin
    let hr := jsRandInt (rng (idx + 1)) (roomMax - roomMin + 1) + roomMin
    let xr := jsRandInt (rng (idx + 2)) (width - wr - 2) + 1
    let yr := jsRandInt (rng (idx + 3)) (height - hr - 2) + 1
    if overlaps g xr yr wr hr then
      placeRooms width height roomMin roomMax rng n (idx + 4) g rs
    else
      placeRooms width height roomMin roomMax rng n (idx + 4)
        (carveRoom g xr yr wr hr) (rs ++ [⟨xr, yr, wr, hr⟩])

/-- Carve the horizontal corridor segment: row `y`, every column from
`min x1 x2` to `max x1 x2` inclusive (src/main.js lines 181-186, 198-202). -/
def carveH (g : Grid) (y x1 x2 : ℕ) : Grid :=
  { g with cell := fun yy xx =>
      if yy = y ∧ min x1 x2 ≤ xx ∧ xx ≤ max x1 x2 then 1 else g.cell yy xx }

/-- Carve the vertical corridor segment: column `x`, every row from
`min y1 y2` to `max y1 y2` inclusive (src/main.js lines 186-190, 192-197). -/
def carveV (g : Grid) (x y1 y2 : ℕ) : Grid :=
  { g with cell := fun yy xx =>
      if xx = x ∧ min y1 y2 ≤ yy ∧ yy ≤ max y1 y2 then 1 else g.cell yy xx }

/-- One L-shaped corridor between centers `c1 = (x1, y1)` and
`c2 = (x2, y2)`.  `coin = true` (the `Math.random() < 0.5` branch) carves
horizontally along row `y1` then vertically along column `x2`; otherwise
vertically along column `x1` then horizontally along row `y2`
(src/main.js lines 179-203). -/
def carveCorridor (g : Grid) (c1 c2 : ℕ × ℕ) (coin : Bool) : Grid :=
  if coin then carveV (carveH g c1.2 c1.1 c2.1) c2.1 c1.2 c2.2
  else carveH (carveV g c1.1 c1.2 c2.2) c2.2 c1.1 c2.1

/-- The corridor loop: one coin draw and one L-corridor per consecutive
pair of room centers, in placement order (src/main.js lines 170-205). -/
def connectRooms (rng : ℕ → ℚ) : List (ℕ × ℕ) → ℕ → Grid → Grid
  | c1 :: c2 :: rest, idx, g =>
    connectRooms rng (c2 :: rest) (idx + 1)
      (carveCorridor g c1 c2 (decide (rng idx < 1 / 2)))
  | _, _, g => g

/-- `generateDungeon(width, height, maxRooms, roomMin, roomMax)`
(src/main.js lines 125-208), with the ambient `Math.random()` sequence
made explicit as `rng`.  Returns the final grid and the room-center list
in placement order. -/
def generateDungeon (width height maxRooms roomMin roomMax : ℕ) (rng : ℕ → ℚ) :
    Grid × List (ℕ × ℕ) :=
  let res := placeRooms width height roomMin roomMax rng maxRooms 0 (mkGrid width height) []
  let centers := res.2.1.map roomCenter
  (connectRooms rng centers res.2.2 res.1, centers)

/-- Membership of a cell `p = (x, y)` in a room rectangle (the set of cells
`carveRoom` writes for that room). -/
def InRect (r : RoomRect) (p : ℕ × ℕ) : Prop :=
  r.x ≤ p.1 ∧ p.1 < r.x + r.w ∧ r.y ≤ p.2 ∧ p.2 < r.y + r.h

instance (r : RoomRect) (p : ℕ × ℕ) : Decidable (InRect r p) := by
  unfold InRect
  infer_instance

/-- Well-formedness of an accepted rectangle for the given generation
parameters: it keeps the source's margins (`x, y ≥ 1`,
`x + w ≤ width - 2`, `y + h ≤ height - 2`) and its sides are drawn from
`[roomMin, roomMax]`. -/
def RectOK (width height roomMin roomMax : ℕ) (r : RoomRect) : Prop :=
  1 ≤ r.x ∧ 1 ≤ r.y ∧ r.x + r.w + 2 ≤ width ∧ r.y + r.h + 2 ≤ height ∧
    roomMin ≤ r.w ∧ r.w ≤ roomMax ∧ roomMin ≤ r.h ∧ r.h ≤ roomMax

/-- Invariant of the room-placement loop: the grid keeps its dimensions,
every accepted rectangle is well formed, every cell of every accepted
rectangle is floor in the current grid, and accepted rectangles are
pairwise disjoint. -/
def RectsOK (width height roomMin roomMax : ℕ) (g : Grid) (rs : List RoomRect) : Prop :=
  g.width = width ∧ g.height = height ∧
    (∀ r ∈ rs, RectOK width height roomMin roomMax r) ∧
    (∀ r ∈ rs, ∀ p : ℕ × ℕ, InRect r p → g.cell p.2 p.1 = 1) ∧
    List.Pairwise (fun r1 r2 => ∀ p : ℕ × ℕ, InRect r1 p → ¬InRect r2 p) rs

/-- A cell `(x, y)` is an in-bounds floor cell of the grid. -/
def isFloor (g : Grid) (x y : ℕ) : Bool :=
  decide (x < g.width) && decide (y < g.height) && decide (g.cell y x = 1)

/-- Two cells are edge-adjacent (they differ by one step along exactly one
axis). -/
def CellAdjacent (a b : ℕ × ℕ) : Prop :=
  (a.1 = b.1 ∧ (a.2 + 1 = b.2 ∨ b.2 + 1 = a.2)) ∨
    (a.2 = b.2 ∧ (a.1 + 1 = b.1 ∨ b.1 + 1 = a.1))

/-- A path of floor cells through the grid: consecutive cells are
edge-adjacent and every cell on the path (both ends included) is floor. -/
inductive FloorPath (g : Grid) : ℕ × ℕ → ℕ × ℕ → Prop
  | single (c : ℕ × ℕ) : isFloor g c.1 c.2 = true → FloorPath g c c
  | cons (a b c : ℕ × ℕ) : isFloor g a.1 a.2 = true → CellAdjacent a b →
      FloorPath g b c → FloorPath g a c

/-- `Math.floor(v + 0.5)`: nearest-cell rounding of a continuous
coordinate (src/main.js lines 361-362 and analogues). -/
def roundCell (v : ℚ) : ℤ := Int.floor (v + 1 / 2)

/-- The movement collision test
`dungeonGrid[cellZ] && dungeonGrid[cellZ][cellX] === 1`
(src/main.js line 363 and analogues): the row must exist (`0 ≤ cz <
height`), the column entry must exist (`0 ≤ cx < width`; otherwise the JS
read yields undefined) and hold a floor. -/
def cellFloor (g : Grid) (cz cx : ℤ) : Bool :=
  decide (0 ≤ cz) && decide (cz < (g.height : ℤ)) &&
    decide (0 ≤ cx) && decide (cx < (g.width : ℤ)) &&
    decide (g.cell cz.toNat cx.toNat = 1)

/-- The x-axis move attempt (src/main.js lines 358-366): with a nonzero
x-delta, commit the candidate `pos.x + dx` only if the candidate cell
(rounded candidate x, rounded current z) is an in-bounds floor cell.
`dx` is the precomputed delta `moveX * moveDistance`. -/
def tryMoveX (g : Grid) (pos : ℚ × ℚ) (dx : ℚ) : ℚ :=
  if dx ≠ 0 ∧ cellFloor g (roundCell pos.2) (roundCell (pos.1 + dx)) = true then
    pos.1 + dx
  else pos.1

/-- The z-axis move attempt (src/main.js lines 368-375): `x` is the current
x-coordinate at the time of the check, i.e. the result of this tick's
x-axis attempt. -/
def tryMoveZ (g : Grid) (x z dz : ℚ) : ℚ :=
  if dz ≠ 0 ∧ cellFloor g (roundCell (z + dz)) (roundCell x) = true then
    z + dz
  else z

/-- One tick of axis-independent movement for one actor (player: src/main.js
lines 357-375; enemy: lines 389-404): x first, then z against the updated
x.  `dx, dz` are the per-axis deltas (`direction component × speed ×
deltaTime`) computed upstream; the square-root normalization producing the
direction components is irrational and stays abstract in these parameters,
while the collision logic itself is exact. -/
def moveActor (g : Grid) (pos : ℚ × ℚ) (dx dz : ℚ) : ℚ × ℚ :=
  let x1 := tryMoveX g pos dx
  (x1, tryMoveZ g x1 pos.2 dz)

/-- Squared planar distance between two positions (src/main.js lines
273-275, 293-295). -/
def distSq (a b : ℚ × ℚ) : ℚ :=
  (a.1 - b.1) * (a.1 - b.1) + (a.2 - b.2) * (a.2 - b.2)

/-- The mutable module-level game state of src/main.js: the collision grid
(the startup `const dungeonGrid`, line 433), the player mesh position
(always present after initialization), the optional enemy mesh position
(`undefined` after the enemy is defeated), both healths, the enemy-attack
cooldown timestamp and the game-over flag (display state of the game-over
text). -/
structure GameState where
  collisionGrid : Grid
  player : ℚ × ℚ
  playerHealth : ℤ
  enemy : Option (ℚ × ℚ)
  enemyHealth : ℤ
  lastEnemyAttackTime : ℚ
  gameOver : Bool

/-- `playerAttack()` (src/main.js lines 270-287): no-op unless the enemy
mesh exists and its health is positive; damages by 50 when the squared
distance is at most `1.5²`; clamps health to 0 and removes the enemy when
health drops to `≤ 0`. -/
def playerAttack (st : GameState) : GameState :=
  match st.enemy with
  | none => st
  | some e =>
    if st.enemyHealth ≤ 0 then st
    else if distSq st.player e ≤ (3 / 2) * (3 / 2) then
      if st.enemyHealth - 50 ≤ 0 then { st with enemyHealth := 0, enemy := none }
      else { st with enemyHealth := st.enemyHealth - 50 }
    else st

/-- `enemyAttack(deltaTime)` (src/main.js lines 290-311): when the enemy
mesh exists, the squared distance to the player is at most `1.0²` and
strictly more than `ATTACK_INTERVAL` milliseconds have passed since the
last successful enemy attack, damage the player, record the attack time
and clamp health (raising game over) when it reaches `≤ 0`. -/
def enemyAttack (st : GameState) (now : ℚ) : GameState :=
  match st.enemy with
  | none => st
  | some e =>
    if distSq st.player e ≤ 1 * 1 then
      if ATTACK_INTERVAL < now - st.lastEnemyAttackTime then
        if st.playerHealth - ENEMY_DAMAGE ≤ 0 then
          { st with playerHealth := 0, lastEnemyAttackTime := now, gameOver := true }
        else
          { st with playerHealth := st.playerHealth - ENEMY_DAMAGE
                    lastEnemyAttackTime := now }
      else st
    else st

/-- One frame of `animate()` game logic (src/main.js lines 337-410), with
rendering and camera work omitted: when the player is alive, move the
player, move the enemy toward the player when the distance is nonzero, and
run the enemy attack; when the player is dead, the whole block is skipped.
`pdx, pdz` are the player's per-axis deltas computed from the key state and
`edx, edz` the enemy's chase deltas (both float products kept abstract, as
in `moveActor`). -/
def animateStep (st : GameState) (pdx pdz edx edz now : ℚ) : GameState :=
  if 0 < st.playerHealth then
    let st1 := { st with player := moveActor st.collisionGrid st.player pdx pdz }
    let st2 :=
      match st1.enemy with
      | none => st1
      | some e =>
        if distSq st1.player e ≠ 0 then
          { st1 with enemy := some (moveActor st1.collisionGrid e edx edz) }
        else st1
    enemyAttack st2 now
  else st

/-- Start/end room selection at startup (src/main.js lines 436-437):
`rooms[0] || computed center` then `rooms[rooms.length - 1] || startRoom`. -/
def startupPlacement (rooms : List (ℕ × ℕ)) (width height : ℕ) :
    (ℕ × ℕ) × (ℕ × ℕ) :=
  let s := rooms.headD (width / 2, height / 2)
  (s, (rooms.getLast?).getD s)

/-- Start/end room selection inside `restartGame` (src/main.js lines
326-327): `dungeon.rooms[0]` with NO fallback, then
`dungeon.rooms[rooms.length - 1] || dungeon.rooms[0]`.  With an empty room
list `createPlayerAndEnemy` would dereference `undefined` and throw, which
the embedding renders as `none`. -/
def restartPlacement (rooms : List (ℕ × ℕ)) : Option ((ℕ × ℕ) × (ℕ × ℕ)) :=
  match rooms.head? with
  | none => none
  | some s => some (s, (rooms.getLast?).getD s)

/-- The startup sequence (src/main.js lines 432-441): generate the dungeon,
bind the `const dungeonGrid` used by all collision checks, and create both
actors at the start/end room centers with full health
(`createPlayerAndEnemy`, lines 240-261). -/
def initialState (rng : ℕ → ℚ) : GameState :=
  let d := generateDungeon DUNGEON_WIDTH DUNGEON_HEIGHT MAX_ROOMS ROOM_MIN_SIZE ROOM_MAX_SIZE rng
  let pl := startupPlacement d.2 DUNGEON_WIDTH DUNGEON_HEIGHT
  { collisionGrid := d.1
    player := ((pl.1.1 : ℚ), (pl.1.2 : ℚ))
    playerHealth := PLAYER_MAX_HEALTH
    enemy := some ((pl.2.1 : ℚ), (pl.2.2 : ℚ))
    enemyHealth := ENEMY_MAX_HEALTH
    lastEnemyAttackTime := 0
    gameOver := false }

/-- `restartGame()` (src/main.js lines 314-334): generate a fresh dungeon
for rendering and actor placement and recreate both actors with full
health.  Crucially, the module-level `const dungeonGrid` is never
reassigned, so `collisionGrid` keeps its pre-restart value; only meshes,
actor positions, healths and the game-over flag change
(`lastEnemyAttackTime` is likewise untouched). -/
def restartGame (st : GameState) (rng : ℕ → ℚ) : Option GameState :=
  let d := generateDungeon DUNGEON_WIDTH DUNGEON_HEIGHT MAX_ROOMS ROOM_MIN_SIZE ROOM_MAX_SIZE rng
  match restartPlacement d.2 with
  | none => none
  | some pl =>
    some { st with
      player := ((pl.1.1 : ℚ), (pl.1.2 : ℚ)),
      playerHealth := PLAYER_MAX_HEALTH,
      enemy := some ((pl.2.1 : ℚ), (pl.2.2 : ℚ)),
      enemyHealth := ENEMY_MAX_HEALTH,
      gameOver := false }

/-- The all-zero `Math.random()` stream used for concrete runs: the first
candidate room is `(1, 1, 3, 3)` with center `(2, 2)`, and every later
candidate repeats it and is rejected as overlapping. -/
def rngA : ℕ → ℚ := fun _ => 0

/-- The constant-one-half stream: the single accepted room is
`(12, 12, 5, 5)` with center `(14, 14)`. -/
def rngB : ℕ → ℚ := fun _ => 1 / 2

/-- A stream whose run accepts two rooms, `(1, 1, 3, 3)` (center `(2, 2)`)
and `(11, 11, 3, 3)` (center `(12, 12)`), rejecting the remaining four
candidates. -/
def wrng : ℕ → ℚ := fun n => if n = 6 ∨ n = 7 then 2 / 5 else 0

/-- A 2×2 grid whose only wall is the cell `(x, y) = (0, 1)`; used for
concrete movement checks. -/
def demoGrid : Grid :=
  { width := 2, height := 2, cell := fun y x => if y = 1 ∧ x = 0 then 0 else 1 }

/-- A concrete combat state: live enemy at exactly attack range 1.5. -/
def stC6 : GameState :=
  { collisionGrid := mkGrid 2 2, player := (0, 0), playerHealth := 100,
    enemy := some (3 / 2, 0), enemyHealth := 50, lastEnemyAttackTime := 0,
    gameOver := false }

/-- A concrete combat state: live enemy at distance 1, cooldown stamp 0. -/
def stC7 : GameState :=
  { collisionGrid := mkGrid 2 2, player := (0, 0), playerHealth := 100,
    enemy := some (1, 0), enemyHealth := 50, lastEnemyAttackTime := 0,
    gameOver := false }

/-- A concrete game-over state: dead player, live in-range enemy. -/
def stC10 : GameState :=
  { collisionGrid := mkGrid 2 2, player := (0, 0), playerHealth := 0,
    enemy := some (1, 0), enemyHealth := 50, lastEnemyAttackTime := 0,
    gameOver := true }

/-- Unfolding: zero attempts leave grid and rooms unchanged. -/
theorem placeRooms_zero (width height roomMin roomMax : ℕ) (rng : ℕ → ℚ)
    (idx : ℕ) (g : Grid) (rs : List RoomRect) :
    placeRooms width height roomMin roomMax rng 0 idx g rs = (g, rs, idx) := rfl

/-- Unfolding: the corridor loop does nothing on an empty center list. -/
theorem connectRooms_nil (rng : ℕ → ℚ) (idx : ℕ) (g : Grid) :
    connectRooms rng [] idx g = g := rfl

/-- Unfolding: the corridor loop does nothing on a single center. -/
theorem connectRooms_one (rng : ℕ → ℚ) (c : ℕ × ℕ) (idx : ℕ) (g : Grid) :
    connectRooms rng [c] idx g = g := rfl

/-- Unfolding: one corridor is carved per consecutive pair of centers. -/
theorem connectRooms_cons (rng : ℕ → ℚ) (c1 c2 : ℕ × ℕ) (rest : List (ℕ × ℕ))
    (idx : ℕ) (g : Grid) :
    connectRooms rng (c1 :: c2 :: rest) idx g =
      connectRooms rng (c2 :: rest) (idx + 1)
        (carveCorridor g c1 c2 (decide (rng idx < 1 / 2))) := rfl

/-- A draw `Math.floor(q * k)` with `q ∈ [0, 1)` and `k ≥ 1` lies in
`[0, k - 1]`. -/
theorem jsRandInt_lt {q : ℚ} {k : ℕ} (h1 : q < 1) (hk : 1 ≤ k) :
    jsRandInt q k < k := by
  have hkq : (0 : ℚ) < (k : ℚ) := by exact_mod_cast hk
  have hqk : q * (k : ℚ) < (k : ℚ) := by
    calc q * (k : ℚ) < 1 * (k : ℚ) := mul_lt_mul_of_pos_right h1 hkq
    _ = (k : ℚ) := one_mul _
  have hfl : Int.floor (q * (k : ℚ)) < (k : ℤ) := by
    rw [Int.floor_lt]; exact_mod_cast hqk
  unfold jsRandInt
  omega

/-- Rounding an integer grid coordinate returns that coordinate:
`Math.floor(n + 0.5) = n`. -/
theorem roundCell_natCast (n : ℕ) : roundCell (n : ℚ) = (n : ℤ) := by
  unfold roundCell
  rw [Int.floor_eq_iff]
  constructor
  · push_cast; linarith
  · push_cast; linarith

/-- Generic monotonicity: a transformation that only ever writes floor
cells (and keeps the dimensions) preserves floor cells. -/
theorem isFloor_mono (g g2 : Grid) (hw : g2.width = g.width)
    (hh : g2.height = g.height)
    (hc : ∀ y x, g2.cell y x = 1 ∨ g2.cell y x = g.cell y x) {x y : ℕ}
    (h : isFloor g x y = true) : isFloor g2 x y = true := by
  unfold isFloor at h ⊢
  simp only [Bool.and_eq_true, decide_eq_true_eq] at h ⊢
  obtain ⟨⟨hx, hy⟩, hcell⟩ := h
  refine ⟨⟨by omega, by omega⟩, ?_⟩
  rcases hc y x with h1 | h1
  · exact h1
  · rw [h1]; exact hcell

/-- Horizontal corridor carving preserves dimensions. -/
theorem carveH_width (g : Grid) (y x1 x2 : ℕ) : (carveH g y x1 x2).width = g.width := rfl

/-- Horizontal corridor carving preserves dimensions. -/
theorem carveH_height (g : Grid) (y x1 x2 : ℕ) : (carveH g y x1 x2).height = g.height := rfl

/-- Vertical corridor carving preserves dimensions. -/
theorem carveV_width (g : Grid) (x y1 y2 : ℕ) : (carveV g x y1 y2).width = g.width := rfl

/-- Vertical corridor carving preserves dimensions. -/
theorem carveV_height (g : Grid) (x y1 y2 : ℕ) : (carveV g x y1 y2).height = g.height := rfl

/-- Corridor carving preserves dimensions. -/
theorem carveCorridor_width (g : Grid) (c1 c2 : ℕ × ℕ) (coin : Bool) :
    (carveCorridor g c1 c2 coin).width = g.width := by
  unfold carveCorridor; split <;> rfl

/-- Corridor carving preserves dimensions. -/
theorem carveCorridor_height (g : Grid) (c1 c2 : ℕ × ℕ) (coin : Bool) :
    (carveCorridor g c1 c2 coin).height = g.height := by
  unfold carveCorridor; split <;> rfl

/-- Room carving preserves dimensions. -/
theorem carveRoom_width (g : Grid) (xr yr wr hr : ℕ) :
    (carveRoom g xr yr wr hr).width = g.width := rfl

/-- Room carving preserves dimensions. -/
theorem carveRoom_height (g : Grid) (xr yr wr hr : ℕ) :
    (carveRoom g xr yr wr hr).height = g.height := rfl

/-- Horizontal corridor carving only writes floors. -/
theorem carveH_mono {g : Grid} {y x1 x2 x0 y0 : ℕ}
    (h : isFloor g x0 y0 = true) : isFloor (carveH g y x1 x2) x0 y0 = true := by
  refine isFloor_mono g (carveH g y x1 x2) rfl rfl (fun yy xx => ?_) h
  dsimp [carveH]
  split
  · exact Or.inl rfl
  · exact Or.inr rfl

/-- Vertical corridor carving only writes floors. -/
theorem carveV_mono {g : Grid} {x y1 y2 x0 y0 : ℕ}
    (h : isFloor g x0 y0 = true) : isFloor (carveV g x y1 y2) x0 y0 = true := by
  refine isFloor_mono g (carveV g x y1 y2) rfl rfl (fun yy xx => ?_) h
  dsimp [carveV]
  split
  · exact Or.inl rfl
  · exact Or.inr rfl

/-- Corridor carving only writes floors. -/
theorem carveCorridor_mono {g : Grid} {c1 c2 : ℕ × ℕ} {coin : Bool} {x0 y0 : ℕ}
    (h : isFloor g x0 y0 = true) :
    isFloor (carveCorridor g c1 c2 coin) x0 y0 = true := by
  unfold carveCorridor
  split
  · exact carveV_mono (carveH_mono h)
  · exact carveH_mono (carveV_mono h)

/-- Room carving only writes floors. -/
theorem carveRoom_mono {g : Grid} {xr yr wr hr x0 y0 : ℕ}
    (h : isFloor g x0 y0 = true) : isFloor (carveRoom g xr yr wr hr) x0 y0 = true := by
  refine isFloor_mono g (carveRoom g xr yr wr hr) rfl rfl (fun yy xx => ?_) h
  dsimp [carveRoom]
  split
  · exact Or.inl rfl
  · exact Or.inr rfl

/-- The corridor loop preserves dimensions. -/
theorem connectRooms_width (rng : ℕ → ℚ) :
    ∀ (cs : List (ℕ × ℕ)) (idx : ℕ) (g : Grid),
      (connectRooms rng cs idx g).width = g.width := by
  intro cs
  induction cs with
  | nil => intro idx g; rfl
  | cons c1 tail ih =>
    intro idx g
    cases tail with
    | nil => rfl
    | cons c2 rest =>
      rw [connectRooms_cons, ih]
      exact carveCorridor_width g c1 c2 _

/-- The corridor loop preserves dimensions. -/
theorem connectRooms_height (rng : ℕ → ℚ) :
    ∀ (cs : List (ℕ × ℕ)) (idx : ℕ) (g : Grid),
      (connectRooms rng cs idx g).height = g.height := by
  intro cs
  induction cs with
  | nil => intro idx g; rfl
  | cons c1 tail ih =>
    intro idx g
    cases tail with
    | nil => rfl
    | cons c2 rest =>
      rw [connectRooms_cons, ih]
      exact carveCorridor_height g c1 c2 _

/-- The corridor loop only writes floors. -/
theorem connectRooms_mono (rng : ℕ → ℚ) :
    ∀ (cs : List (ℕ × ℕ)) (idx : ℕ) (g : Grid) (x0 y0 : ℕ),
      isFloor g x0 y0 = true → isFloor (connectRooms rng cs idx g) x0 y0 = true := by
  intro cs
  induction cs with
  | nil => intro idx g x0 y0 h; exact h
  | cons c1 tail ih =>
    intro idx g x0 y0 h
    cases tail with
    | nil => exact h
    | cons c2 rest =>
      rw [connectRooms_cons]
      exact ih _ _ _ _ (carveCorridor_mono h)

/-- Every floor path starts on a floor cell. -/
theorem floorPath_startFloor {g : Grid} {a b : ℕ × ℕ} (p : FloorPath g a b) :
    isFloor g a.1 a.2 = true := by
  cases p with
  | single c h => exact h
  | cons a b c h hadj hp => exact h

/-- Floor paths compose. -/
theorem floorPath_trans {g : Grid} {a b c : ℕ × ℕ} (p : FloorPath g a b)
    (q : FloorPath g b c) : FloorPath g a c := by
  induction p with
  | single d h => exact q
  | cons d e f h hadj hp ih => exact FloorPath.cons d e c h hadj (ih q)

/-- Cell adjacency is symmetric. -/
theorem cellAdjacent_symm {a b : ℕ × ℕ} (h : CellAdjacent a b) : CellAdjacent b a := by
  unfold CellAdjacent at h ⊢
  omega

/-- Floor paths reverse. -/
theorem floorPath_symm {g : Grid} {a b : ℕ × ℕ} (p : FloorPath g a b) :
    FloorPath g b a := by
  induction p with
  | single c h => exact FloorPath.single c h
  | cons d e f h hadj hp ih =>
    exact floorPath_trans ih
      (FloorPath.cons e d d (floorPath_startFloor hp) (cellAdjacent_symm hadj)
        (FloorPath.single d h))

/-- A run of floor cells to the right is a floor path. -/
theorem floorPath_right {g : Grid} {y : ℕ} :
    ∀ (n xa : ℕ), (∀ k, k ≤ n → isFloor g (xa + k) y = true) →
      FloorPath g (xa, y) (xa + n, y) := by
  intro n
  induction n with
  | zero => intro xa hf; exact FloorPath.single (xa, y) (hf 0 (by omega))
  | succ n ih =>
    intro xa hf
    have step : FloorPath g (xa + 1, y) (xa + 1 + n, y) := by
      refine ih (xa + 1) (fun k hk => ?_)
      have h2 : xa + 1 + k = xa + (k + 1) := by omega
      rw [h2]
      exact hf (k + 1) (by omega)
    have h3 : xa + 1 + n = xa + (n + 1) := by omega
    rw [h3] at step
    exact FloorPath.cons (xa, y) (xa + 1, y) (xa + (n + 1), y)
      (hf 0 (by omega)) (Or.inr ⟨rfl, Or.inl rfl⟩) step

/-- A run of floor cells upward (increasing y) is a floor path. -/
theorem floorPath_down {g : Grid} {x : ℕ} :
    ∀ (n ya : ℕ), (∀ k, k ≤ n → isFloor g x (ya + k) = true) →
      FloorPath g (x, ya) (x, ya + n) := by
  intro n
  induction n with
  | zero => intro ya hf; exact FloorPath.single (x, ya) (hf 0 (by omega))
  | succ n ih =>
    intro ya hf
    have step : FloorPath g (x, ya + 1) (x, ya + 1 + n) := by
      refine ih (ya + 1) (fun k hk => ?_)
      have h2 : ya + 1 + k = ya + (k + 1) := by omega
      rw [h2]
      exact hf (k + 1) (by omega)
    have h3 : ya + 1 + n = ya + (n + 1) := by omega
    rw [h3] at step
    exact FloorPath.cons (x, ya) (x, ya + 1) (x, ya + (n + 1))
      (hf 0 (by omega)) (Or.inl ⟨rfl, Or.inl rfl⟩) step

/-- A full row segment of floor cells yields a path between its two
endpoints, in either direction. -/
theorem floorPath_row {g : Grid} {y x1 x2 : ℕ}
    (hf : ∀ x, min x1 x2 ≤ x → x ≤ max x1 x2 → isFloor g x y = true) :
    FloorPath g (x1, y) (x2, y) := by
  rcases le_total x1 x2 with h | h
  · have := floorPath_right (g := g) (y := y) (x2 - x1) x1 (fun k hk => hf (x1 + k) (by omega) (by omega))
    have h2 : x1 + (x2 - x1) = x2 := by omega
    rwa [h2] at this
  · have := floorPath_right (g := g) (y := y) (x1 - x2) x2 (fun k hk => hf (x2 + k) (by omega) (by omega))
    have h2 : x2 + (x1 - x2) = x1 := by omega
    rw [h2] at this
    exact floorPath_symm this

/-- A full column segment of floor cells yields a path between its two
endpoints, in either direction. -/
theorem floorPath_col {g : Grid} {x y1 y2 : ℕ}
    (hf : ∀ y, min y1 y2 ≤ y → y ≤ max y1 y2 → isFloor g x y = true) :
    FloorPath g (x, y1) (x, y2) := by
  rcases le_total y1 y2 with h | h
  · have := floorPath_down (g := g) (x := x) (y2 - y1) y1 (fun k hk => hf (y1 + k) (by omega) (by omega))
    have h2 : y1 + (y2 - y1) = y2 := by omega
    rwa [h2] at this
  · have := floorPath_down (g := g) (x := x) (y1 - y2) y2 (fun k hk => hf (y2 + k) (by omega) (by omega))
    have h2 : y2 + (y1 - y2) = y1 := by omega
    rw [h2] at this
    exact floorPath_symm this

/-- Every cell of the carved horizontal segment is floor (in bounds). -/
theorem isFloor_carveH {g : Grid} {y x1 x2 x : ℕ} (hy : y < g.height)
    (hx : x < g.width) (h1 : min x1 x2 ≤ x) (h2 : x ≤ max x1 x2) :
    isFloor (carveH g y x1 x2) x y = true := by
  unfold isFloor carveH
  simp only [Bool.and_eq_true, decide_eq_true_eq]
  exact ⟨⟨hx, hy⟩, by simp [h1, h2]⟩

/-- Every cell of the carved vertical segment is floor (in bounds). -/
theorem isFloor_carveV {g : Grid} {x y1 y2 y : ℕ} (hy : y < g.height)
    (hx : x < g.width) (h1 : min y1 y2 ≤ y) (h2 : y ≤ max y1 y2) :
    isFloor (carveV g x y1 y2) x y = true := by
  unfold isFloor carveV
  simp only [Bool.and_eq_true, decide_eq_true_eq]
  exact ⟨⟨hx, hy⟩, by simp [h1, h2]⟩

/-- Floor paths transport along floor-preserving transformations. -/
theorem floorPath_mono {g g2 : Grid}
    (himp : ∀ x y, isFloor g x y = true → isFloor g2 x y = true)
    {a b : ℕ × ℕ} (p : FloorPath g a b) : FloorPath g2 a b := by
  induction p with
  | single c h => exact FloorPath.single c (himp c.1 c.2 h)
  | cons d e f h hadj hp ih => exact FloorPath.cons d e f (himp d.1 d.2 h) hadj ih

/-- The L-corridor carved between two in-bounds centers contains a floor
path between them, whichever direction the coin chose. -/
theorem floorPath_carveCorridor {g : Grid} {c1 c2 : ℕ × ℕ} (coin : Bool)
    (h1x : c1.1 < g.width) (h1y : c1.2 < g.height)
    (h2x : c2.1 < g.width) (h2y : c2.2 < g.height) :
    FloorPath (carveCorridor g c1 c2 coin) c1 c2 := by
  obtain ⟨x1, y1⟩ := c1
  obtain ⟨x2, y2⟩ := c2
  simp only at h1x h1y h2x h2y
  cases coin with
  | true =>
    show FloorPath (carveV (carveH g y1 x1 x2) x2 y1 y2) (x1, y1) (x2, y2)
    have pH : FloorPath (carveH g y1 x1 x2) (x1, y1) (x2, y1) :=
      floorPath_row (fun x hx1 hx2 => isFloor_carveH h1y (by omega) hx1 hx2)
    have pH2 : FloorPath (carveV (carveH g y1 x1 x2) x2 y1 y2) (x1, y1) (x2, y1) :=
      floorPath_mono (fun x y h => carveV_mono h) pH
    have pV : FloorPath (carveV (carveH g y1 x1 x2) x2 y1 y2) (x2, y1) (x2, y2) :=
      floorPath_col (fun y hy1 hy2 => isFloor_carveV
        (by rw [carveH_height]; omega) (by rw [carveH_width]; omega) hy1 hy2)
    exact floorPath_trans pH2 pV
  | false =>
    show FloorPath (carveH (carveV g x1 y1 y2) y2 x1 x2) (x1, y1) (x2, y2)
    have pV : FloorPath (carveV g x1 y1 y2) (x1, y1) (x1, y2) :=
      floorPath_col (fun y hy1 hy2 => isFloor_carveV (by omega) h1x hy1 hy2)
    have pV2 : FloorPath (carveH (carveV g x1 y1 y2) y2 x1 x2) (x1, y1) (x1, y2) :=
      floorPath_mono (fun x y h => carveH_mono h) pV
    have pH : FloorPath (carveH (carveV g x1 y1 y2) y2 x1 x2) (x1, y2) (x2, y2) :=
      floorPath_row (fun x hx1 hx2 => isFloor_carveH
        (by rw [carveV_height]; omega) (by rw [carveV_width]; omega) hx1 hx2)
    exact floorPath_trans pV2 pH

/-- After the corridor loop, every consecutive pair of in-bounds centers is
connected by a floor path. -/
theorem connectRooms_path (rng : ℕ → ℚ) :
    ∀ (cs : List (ℕ × ℕ)) (idx : ℕ) (g : Grid),
      (∀ c ∈ cs, c.1 < g.width ∧ c.2 < g.height) →
      ∀ (i : ℕ) (hi : i + 1 < cs.length),
        FloorPath (connectRooms rng cs idx g)
          (cs.get ⟨i, Nat.lt_of_succ_lt hi⟩) (cs.get ⟨i + 1, hi⟩) := by
  intro cs
  induction cs with
  | nil => intro idx g hb i hi; simp at hi
  | cons c1 tail ih =>
    intro idx g hb i hi
    cases tail with
    | nil => simp at hi
    | cons c2 rest =>
      rw [connectRooms_cons]
      have hdimw : (carveCorridor g c1 c2 (decide (rng idx < 1 / 2))).width = g.width :=
        carveCorridor_width g c1 c2 _
      have hdimh : (carveCorridor g c1 c2 (decide (rng idx < 1 / 2))).height = g.height :=
        carveCorridor_height g c1 c2 _
      cases i with
      | zero =>
        have hc1 := hb c1 (by simp)
        have hc2 := hb c2 (by simp)
        have base : FloorPath (carveCorridor g c1 c2 (decide (rng idx < 1 / 2))) c1 c2 :=
          floorPath_carveCorridor _ hc1.1 hc1.2 hc2.1 hc2.2
        exact floorPath_mono
          (fun x y h => connectRooms_mono rng (c2 :: rest) (idx + 1) _ x y h) base
      | succ j =>
        have hb2 : ∀ c ∈ c2 :: rest,
            c.1 < (carveCorridor g c1 c2 (decide (rng idx < 1 / 2))).width ∧
            c.2 < (carveCorridor g c1 c2 (decide (rng idx < 1 / 2))).height := by
          intro c hc
          rw [hdimw, hdimh]
          exact hb c (by simp [hc])
        have hj : j + 1 < (c2 :: rest).length := by
          simpa using Nat.lt_of_succ_lt_succ hi
        exact ih (idx + 1) _ hb2 j hj

/-- One placement attempt, with the four draws named: the recursion
continues on either the unchanged state (overlap rejection) or the carved
state with the rectangle appended. -/
theorem placeRooms_succ_eq (width height roomMin roomMax : ℕ) (rng : ℕ → ℚ)
    (n idx : ℕ) (g : Grid) (rs : List RoomRect) (wr hr xr yr : ℕ)
    (hwr : wr = jsRandInt (rng idx) (roomMax - roomMin + 1) + roomMin)
    (hhr : hr = jsRandInt (rng (idx + 1)) (roomMax - roomMin + 1) + roomMin)
    (hxr : xr = jsRandInt (rng (idx + 2)) (width - wr - 2) + 1)
    (hyr : yr = jsRandInt (rng (idx + 3)) (height - hr - 2) + 1) :
    placeRooms width height roomMin roomMax rng (n + 1) idx g rs =
      placeRooms width height roomMin roomMax rng n (idx + 4)
        (if overlaps g xr yr wr hr then g else carveRoom g xr yr wr hr)
        (if overlaps g xr yr wr hr then rs else rs ++ [⟨xr, yr, wr, hr⟩]) := by
  have base : placeRooms width height roomMin roomMax rng (n + 1) idx g rs =
      if overlaps g xr yr wr hr then
        placeRooms width height roomMin roomMax rng n (idx + 4) g rs
      else
        placeRooms width height roomMin roomMax rng n (idx + 4)
          (carveRoom g xr yr wr hr) (rs ++ [⟨xr, yr, wr, hr⟩]) := by
    subst hxr hyr
    subst hwr hhr
    rfl
  rw [base]
  by_cases hov : overlaps g xr yr wr hr = true
  · rw [if_pos hov, if_pos hov, if_pos hov]
  · rw [if_neg hov, if_neg hov, if_neg hov]

/-- The overlap scan succeeds exactly when some cell of the candidate
rectangle already holds a floor. -/
theorem overlaps_eq_true_iff (g : Grid) (xr yr wr hr : ℕ) :
    overlaps g xr yr wr hr = true ↔
      ∃ p : ℕ × ℕ, InRect ⟨xr, yr, wr, hr⟩ p ∧ g.cell p.2 p.1 = 1 := by
  unfold overlaps
  simp only [List.any_eq_true, List.mem_range, decide_eq_true_eq]
  constructor
  · rintro ⟨dy, hdy, dx, hdx, hcell⟩
    refine ⟨(xr + dx, yr + dy), ?_, hcell⟩
    simp only [InRect]
    omega
  · rintro ⟨p, hp, hcell⟩
    simp only [InRect] at hp
    refine ⟨p.2 - yr, by omega, p.1 - xr, by omega, ?_⟩
    have e1 : yr + (p.2 - yr) = p.2 := by omega
    have e2 : xr + (p.1 - xr) = p.1 := by omega
    rw [e1, e2]
    exact hcell

/-- Room carving only writes floors (cell-level form). -/
theorem carveRoom_cell_mono {g : Grid} {xr yr wr hr yy xx : ℕ}
    (h : g.cell yy xx = 1) : (carveRoom g xr yr wr hr).cell yy xx = 1 := by
  dsimp [carveRoom]
  split
  · rfl
  · exact h

/-- Room carving makes every cell of the rectangle a floor. -/
theorem carveRoom_cell_inside {g : Grid} {xr yr wr hr : ℕ} {p : ℕ × ℕ}
    (hp : InRect ⟨xr, yr, wr, hr⟩ p) :
    (carveRoom g xr yr wr hr).cell p.2 p.1 = 1 := by
  obtain ⟨hp1, hp2, hp3, hp4⟩ := hp
  dsimp [carveRoom]
  have hcond : yr ≤ p.2 ∧ p.2 < yr + hr ∧ xr ≤ p.1 ∧ p.1 < xr + wr :=
    ⟨hp3, hp4, hp1, hp2⟩
  rw [if_pos hcond]

/-- One attempt preserves the placement invariant, given a well-formed
candidate rectangle. -/
theorem rectsOK_attempt (width height roomMin roomMax xr yr wr hr : ℕ)
    (g : Grid) (rs : List RoomRect)
    (hOK : RectsOK width height roomMin roomMax g rs)
    (hrect : RectOK width height roomMin roomMax ⟨xr, yr, wr, hr⟩) :
    RectsOK width height roomMin roomMax
      (if overlaps g xr yr wr hr then g else carveRoom g xr yr wr hr)
      (if overlaps g xr yr wr hr then rs else rs ++ [⟨xr, yr, wr, hr⟩]) := by
  by_cases hov : overlaps g xr yr wr hr = true
  · rw [if_pos hov, if_pos hov]
    exact hOK
  · rw [if_neg hov, if_neg hov]
    obtain ⟨hgw, hgh, hOKr, hFloor, hDisj⟩ := hOK
    have hnof : ∀ p : ℕ × ℕ, InRect ⟨xr, yr, wr, hr⟩ p → g.cell p.2 p.1 ≠ 1 := by
      intro p hp hcell
      exact hov ((overlaps_eq_true_iff g xr yr wr hr).mpr ⟨p, hp, hcell⟩)
    have hdisjNew : ∀ r ∈ rs, ∀ p : ℕ × ℕ, InRect r p → ¬InRect ⟨xr, yr, wr, hr⟩ p := by
      intro r hrmem p hpr hpnew
      exact hnof p hpnew (hFloor r hrmem p hpr)
    refine ⟨hgw, hgh, ?_, ?_, ?_⟩
    · intro r hrmem
      rcases List.mem_append.mp hrmem with hrm | hrm
      · exact hOKr r hrm
      · rw [List.mem_singleton.mp hrm]
        exact hrect
    · intro r hrmem p hpr
      rcases List.mem_append.mp hrmem with hrm | hrm
      · exact carveRoom_cell_mono (hFloor r hrm p hpr)
      · rw [List.mem_singleton.mp hrm] at hpr
        exact carveRoom_cell_inside hpr
    · refine List.pairwise_append.mpr ⟨hDisj, List.pairwise_singleton _ _, ?_⟩
      intro a ha b hb
      rw [List.mem_singleton.mp hb]
      exact hdisjNew a ha

/-- The placement loop preserves its invariant: grid dimensions, rectangle
well-formedness, carved floors and pairwise disjointness. -/
theorem placeRooms_inv (width height roomMin roomMax : ℕ) (rng : ℕ → ℚ)
    (hrng : GoodRng rng) (hmm : roomMin ≤ roomMax)
    (hw : roomMax + 3 ≤ width) (hh : roomMax + 3 ≤ height) :
    ∀ (n idx : ℕ) (g : Grid) (rs : List RoomRect),
      RectsOK width height roomMin roomMax g rs →
      RectsOK width height roomMin roomMax
        (placeRooms width height roomMin roomMax rng n idx g rs).1
        (placeRooms width height roomMin roomMax rng n idx g rs).2.1 := by
  intro n
  induction n with
  | zero => intro idx g rs h; exact h
  | succ n ih =>
    intro idx g rs h
    rw [placeRooms_succ_eq width height roomMin roomMax rng n idx g rs
      _ _ _ _ rfl rfl rfl rfl]
    apply ih
    apply rectsOK_attempt _ _ _ _ _ _ _ _ _ _ h
    have hw1 : jsRandInt (rng idx) (roomMax - roomMin + 1) < roomMax - roomMin + 1 :=
      jsRandInt_lt (hrng idx).2 (by omega)
    have hh1 : jsRandInt (rng (idx + 1)) (roomMax - roomMin + 1) < roomMax - roomMin + 1 :=
      jsRandInt_lt (hrng (idx + 1)).2 (by omega)
    have hx1 : jsRandInt (rng (idx + 2))
        (width - (jsRandInt (rng idx) (roomMax - roomMin + 1) + roomMin) - 2) <
        width - (jsRandInt (rng idx) (roomMax - roomMin + 1) + roomMin) - 2 :=
      jsRandInt_lt (hrng (idx + 2)).2 (by omega)
    have hy1 : jsRandInt (rng (idx + 3))
        (height - (jsRandInt (rng (idx + 1)) (roomMax - roomMin + 1) + roomMin) - 2) <
        height - (jsRandInt (rng (idx + 1)) (roomMax - roomMin + 1) + roomMin) - 2 :=
      jsRandInt_lt (hrng (idx + 3)).2 (by omega)
    unfold RectOK
    dsimp
    omega

/-- The placement loop never drops accepted rooms. -/
theorem placeRooms_length_le (width height roomMin roomMax : ℕ) (rng : ℕ → ℚ) :
    ∀ (n idx : ℕ) (g : Grid) (rs : List RoomRect),
      rs.length ≤ (placeRooms width height roomMin roomMax rng n idx g rs).2.1.length := by
  intro n
  induction n with
  | zero => intro idx g rs; exact le_refl _
  | succ n ih =>
    intro idx g rs
    rw [placeRooms_succ_eq width height roomMin roomMax rng n idx g rs
      _ _ _ _ rfl rfl rfl rfl]
    refine le_trans ?_ (ih (idx + 4) _ _)
    split
    · exact le_refl _
    · simp

/-- The placement loop preserves the grid width. -/
theorem placeRooms_width (width height roomMin roomMax : ℕ) (rng : ℕ → ℚ) :
    ∀ (n idx : ℕ) (g : Grid) (rs : List RoomRect),
      (placeRooms width height roomMin roomMax rng n idx g rs).1.width = g.width := by
  intro n
  induction n with
  | zero => intro idx g rs; rfl
  | succ n ih =>
    intro idx g rs
    rw [placeRooms_succ_eq width height roomMin roomMax rng n idx g rs
      _ _ _ _ rfl rfl rfl rfl, ih]
    split <;> rfl

/-- The placement loop preserves the grid height. -/
theorem placeRooms_height (width height roomMin roomMax : ℕ) (rng : ℕ → ℚ) :
    ∀ (n idx : ℕ) (g : Grid) (rs : List RoomRect),
      (placeRooms width height roomMin roomMax rng n idx g rs).1.height = g.height := by
  intro n
  induction n with
  | zero => intro idx g rs; rfl
  | succ n ih =>
    intro idx g rs
    rw [placeRooms_succ_eq width height roomMin roomMax rng n idx g rs
      _ _ _ _ rfl rfl rfl rfl, ih]
    split <;> rfl

/-- The placement loop returns a nonempty room list when started from a
nonempty accumulator. -/
theorem placeRooms_ne_nil (width height roomMin roomMax : ℕ) (rng : ℕ → ℚ)
    (n idx : ℕ) (g : Grid) (rs : List RoomRect) (hne : rs ≠ []) :
    (placeRooms width height roomMin roomMax rng n idx g rs).2.1 ≠ [] := by
  intro hemp
  have hlen := placeRooms_length_le width height roomMin roomMax rng n idx g rs
  rw [hemp] at hlen
  simp only [List.length_nil, Nat.le_zero] at hlen
  exact hne (List.length_eq_zero.mp hlen)

/-- No candidate overlaps on the all-wall initial grid. -/
theorem overlaps_mkGrid (width height xr yr wr hr : ℕ) :
    overlaps (mkGrid width height) xr yr wr hr = false := by
  unfold overlaps mkGrid
  simp

/-- Unfolding: the room-center list returned by `generateDungeon`. -/
theorem generateDungeon_snd (width height maxRooms roomMin roomMax : ℕ) (rng : ℕ → ℚ) :
    (generateDungeon width height maxRooms roomMin roomMax rng).2 =
      (placeRooms width height roomMin roomMax rng maxRooms 0
        (mkGrid width height) []).2.1.map roomCenter := rfl

/-- Unfolding: the grid returned by `generateDungeon`. -/
theorem generateDungeon_fst (width height maxRooms roomMin roomMax : ℕ) (rng : ℕ → ℚ) :
    (generateDungeon width height maxRooms roomMin roomMax rng).1 =
      connectRooms rng
        ((placeRooms width height roomMin roomMax rng maxRooms 0
          (mkGrid width height) []).2.1.map roomCenter)
        (placeRooms width height roomMin roomMax rng maxRooms 0
          (mkGrid width height) []).2.2
        (placeRooms width height roomMin roomMax rng maxRooms 0
          (mkGrid width height) []).1 := rfl

/-- The generated grid keeps the requested width. -/
theorem generateDungeon_width (width height maxRooms roomMin roomMax : ℕ) (rng : ℕ → ℚ) :
    (generateDungeon width height maxRooms roomMin roomMax rng).1.width = width := by
  rw [generateDungeon_fst, connectRooms_width, placeRooms_width]
  rfl

/-- The generated grid keeps the requested height. -/
theorem generateDungeon_height (width height maxRooms roomMin roomMax : ℕ) (rng : ℕ → ℚ) :
    (generateDungeon width height maxRooms roomMin roomMax rng).1.height = height := by
  rw [generateDungeon_fst, connectRooms_height, placeRooms_height]
  rfl

/-- The initial placement state satisfies the invariant. -/
theorem rectsOK_init (width height roomMin roomMax : ℕ) :
    RectsOK width height roomMin roomMax (mkGrid width height) [] := by
  refine ⟨rfl, rfl, ?_, ?_, List.Pairwise.nil⟩
  · intro r hrmem; simp at hrmem
  · intro r hrmem; simp at hrmem

/-- At least one attempt always accepts when starting from the all-wall
grid: the generated room list is nonempty whenever `maxRooms ≥ 1`. -/
theorem generateDungeon_rooms_ne_nil (width height maxRooms roomMin roomMax : ℕ)
    (rng : ℕ → ℚ) (hm : 1 ≤ maxRooms) :
    (generateDungeon width height maxRooms roomMin roomMax rng).2 ≠ [] := by
  obtain ⟨m, rfl⟩ : ∃ m, maxRooms = m + 1 := ⟨maxRooms - 1, by omega⟩
  rw [generateDungeon_snd]
  rw [placeRooms_succ_eq width height roomMin roomMax rng m 0 (mkGrid width height) []
    _ _ _ _ rfl rfl rfl rfl]
  simp only [overlaps_mkGrid, Bool.false_eq_true, if_false, List.nil_append]
  intro hemp
  rw [List.map_eq_nil_iff] at hemp
  exact placeRooms_ne_nil width height roomMin roomMax rng m 4 _ _ (by simp) hemp

/-- Every room center returned by `generateDungeon` is an in-bounds floor
cell of the final grid (it lies inside its carved rectangle, and corridor
carving never removes floors), with a margin of at least 3 cells to the
right/bottom edges. -/
theorem generateDungeon_center_props (width height maxRooms roomMin roomMax : ℕ)
    (rng : ℕ → ℚ) (hrng : GoodRng rng) (hmin : 1 ≤ roomMin) (hmm : roomMin ≤ roomMax)
    (hw : roomMax + 3 ≤ width) (hh : roomMax + 3 ≤ height) :
    ∀ c ∈ (generateDungeon width height maxRooms roomMin roomMax rng).2,
      isFloor (generateDungeon width height maxRooms roomMin roomMax rng).1 c.1 c.2 = true ∧
        c.1 + 3 ≤ width ∧ c.2 + 3 ≤ height := by
  intro c hc
  rw [generateDungeon_snd] at hc
  obtain ⟨r, hrmem, rfl⟩ := List.mem_map.mp hc
  have hinv := placeRooms_inv width height roomMin roomMax rng hrng hmm hw hh
    maxRooms 0 (mkGrid width height) [] (rectsOK_init width height roomMin roomMax)
  obtain ⟨hgw, hgh, hOKr, hFloor, hDisj⟩ := hinv
  obtain ⟨r1, r2, r3, r4, r5, r6, r7, r8⟩ := hOKr r hrmem
  have hcen : InRect r (roomCenter r) := by
    unfold InRect roomCenter
    dsimp
    omega
  have hfl := hFloor r hrmem _ hcen
  have hplace : isFloor
      (placeRooms width height roomMin roomMax rng maxRooms 0 (mkGrid width height) []).1
      (roomCenter r).1 (roomCenter r).2 = true := by
    unfold isFloor
    simp only [Bool.and_eq_true, decide_eq_true_eq]
    refine ⟨⟨?_, ?_⟩, hfl⟩
    · rw [hgw]; unfold roomCenter; dsimp; omega
    · rw [hgh]; unfold roomCenter; dsimp; omega
  refine ⟨?_, ?_, ?_⟩
  · rw [generateDungeon_fst]
    exact connectRooms_mono rng _ _ _ _ _ hplace
  · unfold roomCenter; dsimp; omega
  · unfold roomCenter; dsimp; omega

/-- Claim C2: for every dungeon produced by `generateDungeon` (under the
actual parameter regime: at least one cell of room size, rooms fitting
with margins, draws in `[0,1)`) and every pair of consecutive rooms in
placement order, an adjacent-step path of floor cells of the returned grid
connects the first room's center to the second room's center, thanks to
the carved L-corridor. -/
theorem C2_consecutive_rooms_connected (width height maxRooms roomMin roomMax : ℕ)
    (rng : ℕ → ℚ) (hrng : GoodRng rng) (hmin : 1 ≤ roomMin) (hmm : roomMin ≤ roomMax)
    (hw : roomMax + 3 ≤ width) (hh : roomMax + 3 ≤ height) (i : ℕ)
    (hi : i + 1 < (generateDungeon width height maxRooms roomMin roomMax rng).2.length) :
    FloorPath (generateDungeon width height maxRooms roomMin roomMax rng).1
      ((generateDungeon width height maxRooms roomMin roomMax rng).2.get
        ⟨i, Nat.lt_of_succ_lt hi⟩)
      ((generateDungeon width height maxRooms roomMin roomMax rng).2.get ⟨i + 1, hi⟩) := by
  have hb : ∀ c ∈ (placeRooms width height roomMin roomMax rng maxRooms 0
      (mkGrid width height) []).2.1.map roomCenter,
      c.1 < (placeRooms width height roomMin roomMax rng maxRooms 0
        (mkGrid width height) []).1.width ∧
      c.2 < (placeRooms width height roomMin roomMax rng maxRooms 0
        (mkGrid width height) []).1.height := by
    intro c hc
    have hp := generateDungeon_center_props width height maxRooms roomMin roomMax rng
      hrng hmin hmm hw hh c (by rw [generateDungeon_snd]; exact hc)
    rw [placeRooms_width, placeRooms_height]
    show c.1 < width ∧ c.2 < height
    omega
  have hi2 : i + 1 < ((placeRooms width height roomMin roomMax rng maxRooms 0
      (mkGrid width height) []).2.1.map roomCenter).length := by
    rw [generateDungeon_snd] at hi
    exact hi
  have h := connectRooms_path rng
    ((placeRooms width height roomMin roomMax rng maxRooms 0
      (mkGrid width height) []).2.1.map roomCenter)
    (placeRooms width height roomMin roomMax rng maxRooms 0
      (mkGrid width height) []).2.2
    (placeRooms width height roomMin roomMax rng maxRooms 0
      (mkGrid width height) []).1
    hb i hi2
  rw [generateDungeon_fst]
  exact h

/-- Witness for C2: the stream `wrng` accepts exactly the two rooms
`(1,1,3,3)` and `(11,11,3,3)`, and the generated grid connects their
centers `(2,2)` and `(12,12)` by a floor path. -/
theorem C2_witness : FloorPath (generateDungeon 30 30 6 3 6 wrng).1 (2, 2) (12, 12) := by
  have hrng : GoodRng wrng := by
    intro n
    unfold wrng
    split <;> norm_num
  have hl : (generateDungeon 30 30 6 3 6 wrng).2.length = 2 := by with_unfolding_all rfl
  have hlen : 0 + 1 < (generateDungeon 30 30 6 3 6 wrng).2.length := by omega
  have h := C2_consecutive_rooms_connected 30 30 6 3 6 wrng hrng (by norm_num)
    (by norm_num) (by norm_num) (by norm_num) 0 hlen
  have e0 : (generateDungeon 30 30 6 3 6 wrng).2.get ⟨0, Nat.lt_of_succ_lt hlen⟩ = (2, 2) := by
    with_unfolding_all rfl
  have e1 : (generateDungeon 30 30 6 3 6 wrng).2.get ⟨0 + 1, hlen⟩ = (12, 12) := by
    with_unfolding_all rfl
  rw [e0, e1] at h
  exact h

/-- Claim C9: the carved cell rectangles of any two distinct accepted rooms
are disjoint: a cell inside room `i`'s rectangle is outside room `j`'s. -/
theorem C9_rooms_disjoint (width height maxRooms roomMin roomMax : ℕ) (rng : ℕ → ℚ)
    (hrng : GoodRng rng) (hmm : roomMin ≤ roomMax)
    (hw : roomMax + 3 ≤ width) (hh : roomMax + 3 ≤ height) (i j : ℕ)
    (hi : i < (placeRooms width height roomMin roomMax rng maxRooms 0
      (mkGrid width height) []).2.1.length)
    (hj : j < (placeRooms width height roomMin roomMax rng maxRooms 0
      (mkGrid width height) []).2.1.length)
    (hij : i ≠ j) (p : ℕ × ℕ)
    (hp : InRect ((placeRooms width height roomMin roomMax rng maxRooms 0
      (mkGrid width height) []).2.1.get ⟨i, hi⟩) p) :
    ¬InRect ((placeRooms width height roomMin roomMax rng maxRooms 0
      (mkGrid width height) []).2.1.get ⟨j, hj⟩) p := by
  have hinv := placeRooms_inv width height roomMin roomMax rng hrng hmm hw hh
    maxRooms 0 (mkGrid width height) [] (rectsOK_init width height roomMin roomMax)
  have hDisj := hinv.2.2.2.2
  rw [List.pairwise_iff_get] at hDisj
  rcases Nat.lt_or_ge i j with hlt | hge
  · exact hDisj ⟨i, hi⟩ ⟨j, hj⟩ (Fin.mk_lt_mk.mpr hlt) p hp
  · have hlt : j < i := by omega
    intro hpj
    exact hDisj ⟨j, hj⟩ ⟨i, hi⟩ (Fin.mk_lt_mk.mpr hlt) p hpj hp

/-- Witness for C9: in the concrete two-room run of `wrng`, the cell
`(2,2)` of the first accepted room is outside the second accepted room. -/
theorem C9_witness :
    ¬InRect ((placeRooms 30 30 3 6 wrng 6 0 (mkGrid 30 30) []).2.1.getD 1 ⟨0, 0, 0, 0⟩)
      (2, 2) := by
  have hrng : GoodRng wrng := by
    intro n
    unfold wrng
    split <;> norm_num
  have hl : (placeRooms 30 30 3 6 wrng 6 0 (mkGrid 30 30) []).2.1.length = 2 := by
    with_unfolding_all rfl
  have hi : 0 < (placeRooms 30 30 3 6 wrng 6 0 (mkGrid 30 30) []).2.1.length := by omega
  have hj : 1 < (placeRooms 30 30 3 6 wrng 6 0 (mkGrid 30 30) []).2.1.length := by omega
  have hp : InRect ((placeRooms 30 30 3 6 wrng 6 0 (mkGrid 30 30) []).2.1.get ⟨0, hi⟩)
      (2, 2) := by
    have e : (placeRooms 30 30 3 6 wrng 6 0 (mkGrid 30 30) []).2.1.get ⟨0, hi⟩ =
        ⟨1, 1, 3, 3⟩ := by with_unfolding_all rfl
    rw [e]
    decide
  have h := C9_rooms_disjoint 30 30 6 3 6 wrng hrng (by norm_num) (by norm_num)
    (by norm_num) 0 1 hi hj (by norm_num) (2, 2) hp
  have e2 : (placeRooms 30 30 3 6 wrng 6 0 (mkGrid 30 30) []).2.1.getD 1 ⟨0, 0, 0, 0⟩ =
      (placeRooms 30 30 3 6 wrng 6 0 (mkGrid 30 30) []).2.1.get ⟨1, hj⟩ := by
    with_unfolding_all rfl
  rw [e2]
  exact h

/-- Claim C5 (code-level determinism): the generation algorithm is a pure
function of its size parameters and of the sequence of `Math.random()`
draws: two runs whose draw sequences agree everywhere return the same grid
and the same room-center sequence.  (In the JS source the draw sequence is
the ambient, non-injectable `Math.random`; see the results record.) -/
theorem C5_generation_deterministic (width height maxRooms roomMin roomMax : ℕ)
    (r1 r2 : ℕ → ℚ) (hagree : ∀ n, r1 n = r2 n) :
    generateDungeon width height maxRooms roomMin roomMax r1 =
      generateDungeon width height maxRooms roomMin roomMax r2 := by
  have h : r1 = r2 := funext hagree
  rw [h]

/-- Witness for C5 at the concrete all-zero stream. -/
theorem C5_witness :
    generateDungeon 30 30 6 3 6 rngA = generateDungeon 30 30 6 3 6 (fun _ => 0) :=
  C5_generation_deterministic 30 30 6 3 6 rngA (fun _ => 0) (fun _ => rfl)

/-- Claim C8 (amended): at startup the zero-room case falls back to the
computed default center `(⌊width/2⌋, ⌊height/2⌋)`; the restart path has no
such fallback, but whenever at least one room attempt is made the first
candidate is always accepted (the all-wall grid can never overlap), so the
generated room list is nonempty and the restart placement succeeds. -/
theorem C8_placement_totality (width height maxRooms roomMin roomMax : ℕ)
    (rng : ℕ → ℚ) (hm : 1 ≤ maxRooms) :
    startupPlacement [] width height =
      ((width / 2, height / 2), (width / 2, height / 2)) ∧
    (generateDungeon width height maxRooms roomMin roomMax rng).2 ≠ [] ∧
    (restartPlacement (generateDungeon width height maxRooms roomMin roomMax rng).2).isSome
      = true := by
  refine ⟨rfl, generateDungeon_rooms_ne_nil width height maxRooms roomMin roomMax rng hm, ?_⟩
  have hne := generateDungeon_rooms_ne_nil width height maxRooms roomMin roomMax rng hm
  obtain ⟨c, cs, heq⟩ := List.exists_cons_of_ne_nil hne
  rw [heq]
  rfl

/-- Counterexample for C8 as stated: the restart caller performs no
fallback on the zero-room result; its placement yields no start center at
all (the JS code would throw reading `.cx` of `undefined`). -/
theorem C8_counterexample : restartPlacement [] = none := rfl

/-- Witness for C8 (amended) at the concrete parameters and stream. -/
theorem C8_witness :
    startupPlacement [] 30 30 = ((15, 15), (15, 15)) ∧
    (generateDungeon 30 30 6 3 6 rngA).2 ≠ [] ∧
    (restartPlacement (generateDungeon 30 30 6 3 6 rngA).2).isSome = true :=
  C8_placement_totality 30 30 6 3 6 rngA (by norm_num)

/-- Claim C3: per-axis commit discipline.  With a nonzero x-delta the x
coordinate becomes the candidate exactly when the candidate cell (rounded
candidate x, rounded current z) is an in-bounds floor, and stays put
otherwise; the z-axis then does the same against the (possibly updated) x;
an axis with zero delta never moves.  A blocked axis is a silent no-op that
does not prevent the other axis from committing. -/
theorem C3_axis_independent_collision (g : Grid) (pos : ℚ × ℚ) (dx dz : ℚ) :
    (dx ≠ 0 → cellFloor g (roundCell pos.2) (roundCell (pos.1 + dx)) = true →
      (moveActor g pos dx dz).1 = pos.1 + dx) ∧
    (dx ≠ 0 → cellFloor g (roundCell pos.2) (roundCell (pos.1 + dx)) = false →
      (moveActor g pos dx dz).1 = pos.1) ∧
    (dx = 0 → (moveActor g pos dx dz).1 = pos.1) ∧
    (dz ≠ 0 →
      cellFloor g (roundCell (pos.2 + dz)) (roundCell (moveActor g pos dx dz).1) = true →
      (moveActor g pos dx dz).2 = pos.2 + dz) ∧
    (dz ≠ 0 →
      cellFloor g (roundCell (pos.2 + dz)) (roundCell (moveActor g pos dx dz).1) = false →
      (moveActor g pos dx dz).2 = pos.2) ∧
    (dz = 0 → (moveActor g pos dx dz).2 = pos.2) := by
  have hfst : (moveActor g pos dx dz).1 = tryMoveX g pos dx := rfl
  have hsnd : (moveActor g pos dx dz).2 = tryMoveZ g (tryMoveX g pos dx) pos.2 dz := rfl
  refine ⟨?_, ?_, ?_, ?_, ?_, ?_⟩
  · intro hdx hfl
    rw [hfst]
    unfold tryMoveX
    rw [if_pos ⟨hdx, hfl⟩]
  · intro hdx hfl
    rw [hfst]
    unfold tryMoveX
    rw [if_neg (fun hcon => absurd hcon.2 (by simp [hfl]))]
  · intro hdx
    rw [hfst]
    unfold tryMoveX
    rw [if_neg (fun hcon => hcon.1 hdx)]
  · intro hdz hfl
    rw [hfst] at hfl
    rw [hsnd]
    unfold tryMoveZ
    rw [if_pos ⟨hdz, hfl⟩]
  · intro hdz hfl
    rw [hfst] at hfl
    rw [hsnd]
    unfold tryMoveZ
    rw [if_neg (fun hcon => absurd hcon.2 (by simp [hfl]))]
  · intro hdz
    rw [hsnd]
    unfold tryMoveZ
    rw [if_neg (fun hcon => hcon.1 hdz)]

/-- Witness for C3: on the demo grid, a diagonal step from the origin
commits on both axes. -/
theorem C3_witness :
    (moveActor demoGrid (0, 0) (1 / 2) (1 / 2)).1 = 0 + 1 / 2 ∧
    (moveActor demoGrid (0, 0) (1 / 2) (1 / 2)).2 = 0 + 1 / 2 := by
  have h := C3_axis_independent_collision demoGrid (0, 0) (1 / 2) (1 / 2)
  constructor
  · exact h.1 (by norm_num) (by with_unfolding_all rfl)
  · exact h.2.2.2.1 (by norm_num) (by with_unfolding_all rfl)

/-- One movement tick keeps an actor whose position rounds to a floor cell
on floor cells: each committed axis was checked against the grid, and an
uncommitted axis keeps the old (checked) coordinate. -/
theorem moveActor_preserves_floor (g : Grid) (pos : ℚ × ℚ) (dx dz : ℚ)
    (h : cellFloor g (roundCell pos.2) (roundCell pos.1) = true) :
    cellFloor g (roundCell (moveActor g pos dx dz).2)
      (roundCell (moveActor g pos dx dz).1) = true := by
  have hfst : (moveActor g pos dx dz).1 = tryMoveX g pos dx := rfl
  have hsnd : (moveActor g pos dx dz).2 = tryMoveZ g (tryMoveX g pos dx) pos.2 dz := rfl
  rw [hfst, hsnd]
  have hx : cellFloor g (roundCell pos.2) (roundCell (tryMoveX g pos dx)) = true := by
    unfold tryMoveX
    split
    · next hcon => exact hcon.2
    · exact h
  unfold tryMoveZ
  split
  · next hcon => exact hcon.2
  · exact hx

/-- An in-bounds floor cell passes the movement collision test at its own
integer coordinates. -/
theorem cellFloor_of_isFloor (g : Grid) (cx cy : ℕ) (h : isFloor g cx cy = true) :
    cellFloor g (cy : ℤ) (cx : ℤ) = true := by
  unfold isFloor at h
  unfold cellFloor
  simp only [Bool.and_eq_true, decide_eq_true_eq] at h ⊢
  obtain ⟨⟨hx, hy⟩, hc⟩ := h
  refine ⟨⟨⟨⟨by omega, by exact_mod_cast hy⟩, by omega⟩, by exact_mod_cast hx⟩, ?_⟩
  simpa using hc

/-- When rooms exist, both startup anchors are members of the room list. -/
theorem startupPlacement_mem (rooms : List (ℕ × ℕ)) (width height : ℕ)
    (hne : rooms ≠ []) :
    (startupPlacement rooms width height).1 ∈ rooms ∧
    (startupPlacement rooms width height).2 ∈ rooms := by
  obtain ⟨c, cs, rfl⟩ := List.exists_cons_of_ne_nil hne
  unfold startupPlacement
  dsimp
  constructor
  · simp
  · rw [List.getLast?_eq_getLast _ (by simp)]
    simp only [Option.getD_some]
    exact List.getLast_mem _

/-- Rounding composed with integer spawn coordinates lands on the floor
cell itself. -/
theorem cellFloor_round_natCast (g : Grid) (cx cy : ℕ) (h : isFloor g cx cy = true) :
    cellFloor g (roundCell ((cy : ℕ) : ℚ)) (roundCell ((cx : ℕ) : ℚ)) = true := by
  rw [roundCell_natCast, roundCell_natCast]
  exact cellFloor_of_isFloor g cx cy h

/-- At startup both actors stand on floor cells of the collision grid:
the room list is nonempty, placement picks room centers, and centers are
floor. -/
theorem initialState_on_floor (rng : ℕ → ℚ) (hrng : GoodRng rng) :
    cellFloor (initialState rng).collisionGrid (roundCell (initialState rng).player.2)
      (roundCell (initialState rng).player.1) = true ∧
    ∀ e, (initialState rng).enemy = some e →
      cellFloor (initialState rng).collisionGrid (roundCell e.2) (roundCell e.1) = true := by
  have hne := generateDungeon_rooms_ne_nil DUNGEON_WIDTH DUNGEON_HEIGHT MAX_ROOMS
    ROOM_MIN_SIZE ROOM_MAX_SIZE rng (by decide)
  have hmem := startupPlacement_mem _ DUNGEON_WIDTH DUNGEON_HEIGHT hne
  have hprops := generateDungeon_center_props DUNGEON_WIDTH DUNGEON_HEIGHT MAX_ROOMS
    ROOM_MIN_SIZE ROOM_MAX_SIZE rng hrng (by decide) (by decide) (by decide) (by decide)
  have h1 := (hprops _ hmem.1).1
  have h2 := (hprops _ hmem.2).1
  constructor
  · exact cellFloor_round_natCast _ _ _ h1
  · intro e he
    have hEe := Option.some.inj he.symm
    rw [hEe]
    exact cellFloor_round_natCast _ _ _ h2

/-- Claim C4 (amended): within one dungeon lifetime the floor invariant
holds — at startup both actors' positions round to floor cells of the
collision grid, and each movement tick preserves the property on a fixed
grid.  (Across a restart it fails, because the collision grid is not
replaced; see the counterexample.) -/
theorem C4_alive_on_floor_invariant (rng : ℕ → ℚ) (hrng : GoodRng rng) :
    cellFloor (initialState rng).collisionGrid (roundCell (initialState rng).player.2)
      (roundCell (initialState rng).player.1) = true ∧
    (∀ e, (initialState rng).enemy = some e →
      cellFloor (initialState rng).collisionGrid (roundCell e.2) (roundCell e.1) = true) ∧
    (∀ (g : Grid) (pos : ℚ × ℚ) (dx dz : ℚ),
      cellFloor g (roundCell pos.2) (roundCell pos.1) = true →
      cellFloor g (roundCell (moveActor g pos dx dz).2)
        (roundCell (moveActor g pos dx dz).1) = true) := by
  obtain ⟨h1, h2⟩ := initialState_on_floor rng hrng
  exact ⟨h1, h2, fun g pos dx dz h => moveActor_preserves_floor g pos dx dz h⟩

/-- Witness for C4 (amended) at the concrete all-zero stream. -/
theorem C4_witness :
    cellFloor (initialState rngA).collisionGrid (roundCell (initialState rngA).player.2)
      (roundCell (initialState rngA).player.1) = true :=
  (C4_alive_on_floor_invariant rngA (fun n => by norm_num [rngA])).1

/-- Counterexample for C4 as stated: after a restart, the actors are placed
at the NEW dungeon's room centers while collision still consults the
pre-restart grid.  Restarting the `rngA` session with the `rngB` dungeon
puts the player at `(14, 14)`, which rounds to a wall of the grid used for
collision — the invariant is broken at a reachable state. -/
theorem C4_counterexample :
    (restartGame (initialState rngA) rngB).map
      (fun st => cellFloor st.collisionGrid (roundCell st.player.2) (roundCell st.player.1))
      = some false := by
  with_unfolding_all rfl

/-- Claim C1 at the failing input: `restartGame` leaves the module-level
`const dungeonGrid` in place.  After restarting the `rngA` session with
the `rngB` dungeon, the grid used for collision is still the startup grid
(its cell `(14, 14)` is a wall, value 0) even though the newly generated
dungeon has floor (value 1) there, and the player now stands exactly on
that cell `(14, 14)` — the new dungeon's first-room center. -/
theorem C1_restart_keeps_stale_grid :
    ((restartGame (initialState rngA) rngB).map fun st => st.collisionGrid)
      = some (initialState rngA).collisionGrid ∧
    ((restartGame (initialState rngA) rngB).map fun st => st.collisionGrid.cell 14 14)
      = some 0 ∧
    (generateDungeon DUNGEON_WIDTH DUNGEON_HEIGHT MAX_ROOMS ROOM_MIN_SIZE ROOM_MAX_SIZE
      rngB).1.cell 14 14 = 1 ∧
    ((restartGame (initialState rngA) rngB).map fun st => st.player)
      = some ((14 : ℚ), (14 : ℚ)) := by
  refine ⟨?_, ?_, ?_, ?_⟩
  · with_unfolding_all rfl
  · with_unfolding_all rfl
  · with_unfolding_all rfl
  · with_unfolding_all rfl

/-- Claim C6: a player attack damages the enemy exactly when the enemy
exists, is alive, and lies within squared distance `1.5 * 1.5` (the bound
is inclusive); a hit subtracts 50, health is clamped at 0 and the enemy
removed when it drops to `≤ 0`, after which further player attacks are
no-ops. -/
theorem C6_player_attack_spec (st : GameState) :
    (st.enemy = none → playerAttack st = st) ∧
    (st.enemyHealth ≤ 0 → playerAttack st = st) ∧
    (∀ e, st.enemy = some e → 0 < st.enemyHealth →
      (¬distSq st.player e ≤ (3 / 2) * (3 / 2) → playerAttack st = st) ∧
      (distSq st.player e ≤ (3 / 2) * (3 / 2) →
        (st.enemyHealth - 50 ≤ 0 →
          playerAttack st = { st with enemyHealth := 0, enemy := none } ∧
          playerAttack (playerAttack st) = playerAttack st) ∧
        (0 < st.enemyHealth - 50 →
          playerAttack st = { st with enemyHealth := st.enemyHealth - 50 }))) := by
  refine ⟨?_, ?_, ?_⟩
  · intro h
    unfold playerAttack
    rw [h]
  · intro h
    unfold playerAttack
    cases he : st.enemy with
    | none => rfl
    | some e =>
      dsimp only
      rw [if_pos h]
  · intro e he hpos
    constructor
    · intro hfar
      unfold playerAttack
      rw [he]
      dsimp only
      rw [if_neg (by omega), if_neg hfar]
    · intro hnear
      have hkillState : st.enemyHealth - 50 ≤ 0 →
          playerAttack st = { st with enemyHealth := 0, enemy := none } := by
        intro hkill
        unfold playerAttack
        rw [he]
        dsimp only
        rw [if_neg (by omega), if_pos hnear, if_pos hkill]
      constructor
      · intro hkill
        refine ⟨hkillState hkill, ?_⟩
        rw [hkillState hkill]
        unfold playerAttack
        rfl
      · intro hlive
        unfold playerAttack
        rw [he]
        dsimp only
        rw [if_neg (by omega), if_pos hnear, if_neg (by omega)]

/-- Witness for C6: attacking a 50-health enemy at distance exactly 1.5
succeeds (inclusive boundary), kills and removes it, and a second attack
is a no-op. -/
theorem C6_witness :
    playerAttack stC6 = { stC6 with enemyHealth := 0, enemy := none } ∧
    playerAttack (playerAttack stC6) = playerAttack stC6 := by
  have h := ((C6_player_attack_spec stC6).2.2 (3 / 2, 0) rfl (by norm_num [stC6])).2
    (by norm_num [distSq, stC6])
  exact ⟨(h.1 (by norm_num [stC6])).1, (h.1 (by norm_num [stC6])).2⟩

/-- Any enemy-attack attempt at most `ATTACK_INTERVAL` milliseconds after
the cooldown stamp leaves the state unchanged, even in range. -/
theorem enemyAttack_cooldown_reject (st : GameState) (now : ℚ)
    (h : now - st.lastEnemyAttackTime ≤ ATTACK_INTERVAL) : enemyAttack st now = st := by
  unfold enemyAttack
  cases he : st.enemy with
  | none => rfl
  | some e =>
    dsimp only
    split
    · rw [if_neg (not_lt.mpr h)]
    · rfl

/-- Claim C7: an enemy attack lands only when the enemy exists, the squared
distance to the player is at most `1.0 * 1.0` and strictly more than
`ATTACK_INTERVAL` milliseconds have elapsed since the last successful
attack (in particular at least `ATTACK_INTERVAL`); any attempt with at
most `ATTACK_INTERVAL` elapsed is rejected even in range; a success
subtracts the fixed damage 10 (clamped at 0), stamps the cooldown with the
current time, and every attempt within `ATTACK_INTERVAL` of the success
leaves the state unchanged, so successive successes are at least
`ATTACK_INTERVAL` apart. -/
theorem C7_enemy_attack_cooldown (st : GameState) (now : ℚ) :
    (st.enemy = none → enemyAttack st now = st) ∧
    (∀ e, st.enemy = some e → ¬distSq st.player e ≤ 1 * 1 → enemyAttack st now = st) ∧
    (now - st.lastEnemyAttackTime ≤ ATTACK_INTERVAL → enemyAttack st now = st) ∧
    (∀ e, st.enemy = some e → distSq st.player e ≤ 1 * 1 →
      ATTACK_INTERVAL < now - st.lastEnemyAttackTime →
      (enemyAttack st now).lastEnemyAttackTime = now ∧
      (enemyAttack st now).playerHealth =
        (if st.playerHealth - ENEMY_DAMAGE ≤ 0 then 0
         else st.playerHealth - ENEMY_DAMAGE) ∧
      ATTACK_INTERVAL ≤ now - st.lastEnemyAttackTime ∧
      (∀ t2, t2 - now ≤ ATTACK_INTERVAL →
        enemyAttack (enemyAttack st now) t2 = enemyAttack st now)) := by
  refine ⟨?_, ?_, fun h => enemyAttack_cooldown_reject st now h, ?_⟩
  · intro h
    unfold enemyAttack
    rw [h]
  · intro e he hfar
    unfold enemyAttack
    rw [he]
    dsimp only
    rw [if_neg hfar]
  · intro e he hnear hcool
    have hcore : enemyAttack st now =
        (if st.playerHealth - ENEMY_DAMAGE ≤ 0 then
          { st with playerHealth := 0, lastEnemyAttackTime := now, gameOver := true }
        else
          { st with playerHealth := st.playerHealth - ENEMY_DAMAGE
                    lastEnemyAttackTime := now }) := by
      unfold enemyAttack
      rw [he]
      dsimp only
      rw [if_pos hnear, if_pos hcool]
    have hlast : (enemyAttack st now).lastEnemyAttackTime = now := by
      rw [hcore]
      split <;> rfl
    refine ⟨hlast, ?_, le_of_lt hcool, ?_⟩
    · rw [hcore]
      split
      · next hle => rfl
      · next hgt => rfl
    · intro t2 ht2
      exact enemyAttack_cooldown_reject (enemyAttack st now) t2 (by rw [hlast]; exact ht2)

/-- Witness for C7: at distance exactly 1 and 1001 ms after the stamp the
attack lands (health 100 → 90, stamp 1001), and a follow-up at 1500 ms is
rejected. -/
theorem C7_witness :
    (enemyAttack stC7 1001).lastEnemyAttackTime = 1001 ∧
    (enemyAttack stC7 1001).playerHealth = 90 ∧
    enemyAttack (enemyAttack stC7 1001) 1500 = enemyAttack stC7 1001 := by
  have h := (C7_enemy_attack_cooldown stC7 1001).2.2.2 (1, 0) rfl
    (by norm_num [distSq, stC7]) (by norm_num [ATTACK_INTERVAL, stC7])
  refine ⟨h.1, ?_, h.2.2.2 1500 (by norm_num [ATTACK_INTERVAL, stC7])⟩
  rw [h.2.1, if_neg (by norm_num [stC7, ENEMY_DAMAGE])]
  norm_num [stC7, ENEMY_DAMAGE]

/-- Claim C10: the player attack is not suspended during game over — its
guard reads only enemy existence and enemy health, so with player health 0
it still damages (and can remove) a live in-range enemy; only the
tick-driven update is gated on positive player health, and it is a
complete no-op otherwise. -/
theorem C10_attack_during_game_over :
    (∀ (st : GameState) (e : ℚ × ℚ), st.playerHealth = 0 → st.enemy = some e →
      0 < st.enemyHealth → distSq st.player e ≤ (3 / 2) * (3 / 2) →
      (st.enemyHealth - 50 ≤ 0 →
        playerAttack st = { st with enemyHealth := 0, enemy := none }) ∧
      (0 < st.enemyHealth - 50 →
        playerAttack st = { st with enemyHealth := st.enemyHealth - 50 })) ∧
    (∀ (st : GameState) (pdx pdz edx edz now : ℚ), st.playerHealth ≤ 0 →
      animateStep st pdx pdz edx edz now = st) := by
  constructor
  · intro st e hdead he hpos hnear
    constructor
    · intro hkill
      unfold playerAttack
      rw [he]
      dsimp only
      rw [if_neg (by omega), if_pos hnear, if_pos hkill]
    · intro hlive
      unfold playerAttack
      rw [he]
      dsimp only
      rw [if_neg (by omega), if_pos hnear, if_neg (by omega)]
  · intro st pdx pdz edx edz now h
    unfold animateStep
    rw [if_neg (by omega)]

/-- Witness for C10: in the concrete game-over state the attack still kills
the in-range enemy, and a tick is the identity. -/
theorem C10_witness :
    playerAttack stC10 = { stC10 with enemyHealth := 0, enemy := none } ∧
    animateStep stC10 0 0 0 0 0 = stC10 := by
  constructor
  · exact ((C10_attack_during_game_over).1 stC10 (1, 0) rfl rfl (by norm_num [stC10])
      (by norm_num [distSq, stC10])).1 (by norm_num [stC10])
  · exact (C10_attack_during_game_over).2 stC10 0 0 0 0 0 (by norm_num [stC10])
